import Mathlib

/-!
Shallow embedding of the XLS proc-network interpreter.

The repository sources under verification contain the interpreter's test
suite (`xls/interpreter/proc_network_interpreter_test.cc`) but not the
interpreter implementation itself (`proc_network_interpreter.cc`,
`proc_interpreter.cc`, `channel_queue.cc` are absent).  The concrete proc
networks below are translated from the test file; the interpreter core
(value evaluation, channel queues, per-proc dataflow evaluator, network
tick driver and deadlock detector) is modelled from the specification.
-/

namespace XlsSpec

/-- Immutable structurally-typed datum: a fixed-width bit-vector holding an
unsigned natural, or a tuple of values.  Token values are represented as the
empty tuple (tokens carry no data). -/
inductive Value where
  | bits (width : Nat) (val : Nat)
  | tuple (elts : List Value)
deriving Repr

/-- Structural (decidable) equality on values. -/
def Value.decEq : (a b : Value) → Decidable (a = b)
  | .bits w v, .bits w2 v2 =>
      if h : w = w2 ∧ v = v2 then
        .isTrue (by rw [h.1, h.2])
      else
        .isFalse (by intro he; cases he; exact h ⟨rfl, rfl⟩)
  | .bits _ _, .tuple _ => .isFalse (by intro h; cases h)
  | .tuple _, .bits _ _ => .isFalse (by intro h; cases h)
  | .tuple a, .tuple b =>
      match decEqList a b with
      | .isTrue h => .isTrue (by rw [h])
      | .isFalse h => .isFalse (by intro he; cases he; exact h rfl)
where
  decEqList : (a b : List Value) → Decidable (a = b)
  | [], [] => .isTrue rfl
  | [], _ :: _ => .isFalse (by intro h; cases h)
  | _ :: _, [] => .isFalse (by intro h; cases h)
  | x :: xs, y :: ys =>
      match Value.decEq x y, decEqList xs ys with
      | .isTrue h1, .isTrue h2 => .isTrue (by rw [h1, h2])
      | .isFalse h1, _ =>
          .isFalse (by intro he; injection he with he1 he2; exact h1 he1)
      | _, .isFalse h2 =>
          .isFalse (by intro he; injection he with he1 he2; exact h2 he2)

instance : DecidableEq Value := Value.decEq

/-- Value of width `w` holding `v` truncated to `w` bits (`UBits` in the
test source). -/
def UBits (v w : Nat) : Value := Value.bits w (v % 2 ^ w)

/-- Token value: carries no data, only ordering. -/
def tokenValue : Value := Value.tuple []

/-- Channel kind as declared at channel creation. -/
inductive ChannelKind where
  | sendOnly
  | receiveOnly
  | sendReceive
deriving DecidableEq, Repr

/-- Channel: identity, name, kind, and the ordered field schema given as the
bit widths of the row's fields. -/
structure Channel where
  id : Nat
  name : String
  kind : ChannelKind
  schema : List Nat
deriving DecidableEq, Repr

/-- Row: one tuple of values matching a channel's field schema. -/
abbrev Row := List Value

/-- Modelled from the spec: `ChannelQueue::Enqueue` appends a row at the
tail of the FIFO buffer (queues are unbounded unless configured bounded;
the networks under test use the unbounded default). -/
def chqEnqueue (q : List Row) (r : Row) : List Row := q ++ [r]

/-- Modelled from the spec: `ChannelQueue::Dequeue` removes and returns the
head row, or fails (`none`) when the queue is empty. -/
def chqDequeue (q : List Row) : Option (Row × List Row) :=
  match q with
  | [] => none
  | r :: rest => some (r, rest)

/-- State of all channel queues: association list from channel id to queue
contents (head of the inner list is the next row to dequeue). -/
abbrev QueueState := List (Nat × List Row)

/-- Contents of the queue bound to channel `ch`. -/
def getQueue (qs : QueueState) (ch : Nat) : List Row :=
  match qs with
  | [] => []
  | (c, q) :: rest => if c = ch then q else getQueue rest ch

/-- Replace the queue bound to channel `ch`. -/
def setQueue (qs : QueueState) (ch : Nat) (q : List Row) : QueueState :=
  match qs with
  | [] => [(ch, q)]
  | (c, q0) :: rest =>
      if c = ch then (ch, q) :: rest else (c, q0) :: setQueue rest ch q

/-- Enqueue a row on channel `ch`'s queue. -/
def enqueue (qs : QueueState) (ch : Nat) (r : Row) : QueueState :=
  setQueue qs ch (chqEnqueue (getQueue qs ch) r)

/-- Dequeue the head row from channel `ch`'s queue, failing when empty. -/
def dequeue (qs : QueueState) (ch : Nat) : Option (Row × QueueState) :=
  match chqDequeue (getQueue qs ch) with
  | none => none
  | some (r, q) => some (r, setQueue qs ch q)

/-- Node operation: the closed tagged-variant operator set.  The four
side-effecting operators carry their channel reference; all others are
purely combinational. -/
inductive Op where
  | tokenParam
  | stateParam
  | literal (v : Value)
  | add
  | sub
  | eqOp
  | neOp
  | notOp
  | bitSlice (start width : Nat)
  | tupleIndex (i : Nat)
  | mkTuple
  | select
  | send (ch : Nat)
  | sendIf (ch : Nat)
  | receive (ch : Nat)
  | receiveIf (ch : Nat)
deriving DecidableEq, Repr

/-- Node: one operation, a result value, and operand nodes given by id.
Operand order: `send ch` takes `token :: data...`; `sendIf ch` takes
`token :: predicate :: data...`; `receive ch` takes `[token]`;
`receiveIf ch` takes `[token, predicate]`; `select` takes
`selector :: cases...`. -/
structure Node where
  id : Nat
  op : Op
  operands : List Nat
deriving DecidableEq, Repr

/-- Proc: persistent state value, a node graph, and the two designated
outputs (final token and next state), as built by `ProcBuilder::Build`. -/
structure Proc where
  name : String
  initState : Value
  nodes : List Node
  tokenOutId : Nat
  nextStateId : Nat
deriving DecidableEq, Repr

/-- Network: the declared channels plus the procs of the package. -/
structure Network where
  channels : List Channel
  procs : List Proc
deriving DecidableEq, Repr

/-- Modelled from the spec: pure combinational evaluation (exact arithmetic
on fixed-width bit-vectors, tuple construction/projection, select indexing
its cases by the selector's value).  `none` signals an operand type
mismatch, which cannot occur in a well-formed network. -/
def evalPure (op : Op) (args : List Value) : Option Value :=
  match op, args with
  | .literal v, [] => some v
  | .add, [.bits w a, .bits w2 b] =>
      if w = w2 then some (.bits w ((a + b) % 2 ^ w)) else none
  | .sub, [.bits w a, .bits w2 b] =>
      if w = w2 then some (.bits w ((a + (2 ^ w - b)) % 2 ^ w)) else none
  | .eqOp, [a, b] => some (.bits 1 (if a = b then 1 else 0))
  | .neOp, [a, b] => some (.bits 1 (if a = b then 0 else 1))
  | .notOp, [.bits w a] => some (.bits w (2 ^ w - 1 - a))
  | .bitSlice s wid, [.bits _ a] => some (.bits wid (a / 2 ^ s % 2 ^ wid))
  | .tupleIndex i, [.tuple elts] => elts.get? i
  | .mkTuple, _ => some (.tuple args)
  | .select, sel :: cases =>
      match sel with
      | .bits _ s => cases.get? s
      | _ => none
  | _, _ => none

/-- Zero row of a channel's schema: the well-defined placeholder yielded by
a false-predicate ReceiveIf (spec design note: a zero/default value of the
channel's row type). -/
def zeroRow (chans : List Channel) (ch : Nat) : Row :=
  match chans.find? (fun c => c.id == ch) with
  | some c => c.schema.map (fun w => Value.bits w 0)
  | none => []

/-- Per-tick evaluation environment of one proc: evaluated node results,
keyed by node id. -/
abbrev Env := List (Nat × Value)

/-- Result value of node `id` this tick, when already evaluated. -/
def lookupEnv (env : Env) (id : Nat) : Option Value := env.lookup id

/-- Outcome of attempting one ready node. -/
inductive AttemptResult where
  | notReady
  | typeError
  | blocked (ch : Nat)
  | done (v : Value) (qs : QueueState)
deriving Repr

/-- Modelled from the spec: attempt to evaluate one node given the proc's
current state value, the tick's environment and the queue state.  Pure ops
evaluate combinationally; `send` enqueues (unbounded queues never refuse);
`sendIf` with a false predicate completes without enqueueing and forwards
the token; `receive` dequeues or blocks on an empty queue; `receiveIf` with
a false predicate completes without dequeueing, yielding the token and a
zero placeholder row. -/
def attemptNode (chans : List Channel) (stateVal : Value) (env : Env)
    (qs : QueueState) (n : Node) : AttemptResult :=
  match n.operands.mapM (lookupEnv env) with
  | none => .notReady
  | some args =>
    match n.op with
    | .tokenParam => .done tokenValue qs
    | .stateParam => .done stateVal qs
    | .send ch =>
        match args with
        | tok :: data => .done tok (enqueue qs ch data)
        | _ => .typeError
    | .sendIf ch =>
        match args with
        | tok :: pred :: data =>
            match pred with
            | .bits 1 0 => .done tok qs
            | .bits 1 1 => .done tok (enqueue qs ch data)
            | _ => .typeError
        | _ => .typeError
    | .receive ch =>
        match args with
        | [tok] =>
            match dequeue qs ch with
            | none => .blocked ch
            | some (row, qs2) => .done (.tuple (tok :: row)) qs2
        | _ => .typeError
    | .receiveIf ch =>
        match args with
        | [tok, pred] =>
            match pred with
            | .bits 1 0 => .done (.tuple (tok :: zeroRow chans ch)) qs
            | .bits 1 1 =>
                match dequeue qs ch with
                | none => .blocked ch
                | some (row, qs2) => .done (.tuple (tok :: row)) qs2
            | _ => .typeError
        | _ => .typeError
    | op =>
        match evalPure op args with
        | some v => .done v qs
        | none => .typeError

/-- Modelled from the spec: one pass of a proc's dataflow evaluator.  Scans
the node list in order; every unevaluated node whose operands are all
evaluated is attempted.  Returns the extended environment, the updated
queue state, the number of newly evaluated nodes, and the channels of
ready side-effecting nodes that could not complete. -/
def procPass (chans : List Channel) (stateVal : Value) :
    List Node → Env → QueueState → Env × QueueState × Nat × List Nat
  | [], env, qs => (env, qs, 0, [])
  | n :: rest, env, qs =>
      match lookupEnv env n.id with
      | some _ => procPass chans stateVal rest env qs
      | none =>
          match attemptNode chans stateVal env qs n with
          | .done v qs2 =>
              let (env2, qs3, k, bs) :=
                procPass chans stateVal rest ((n.id, v) :: env) qs2
              (env2, qs3, k + 1, bs)
          | .blocked ch =>
              let (env2, qs2, k, bs) := procPass chans stateVal rest env qs
              (env2, qs2, k, ch :: bs)
          | _ => procPass chans stateVal rest env qs

/-- A proc's tick iteration is complete once both designated outputs are
evaluated. -/
def iterationComplete (p : Proc) (env : Env) : Bool :=
  (lookupEnv env p.tokenOutId).isSome && (lookupEnv env p.nextStateId).isSome

/-- Modelled from the spec: run one proc's iteration until it is complete
or a pass makes no further progress (blocked).  Returns the environment,
queue state, total newly evaluated nodes, and the blocked channels of the
final pass.  `fuel` bounds the passes; `p.nodes.length + 1` always
suffices since every continuing pass evaluates at least one node. -/
def runIteration (chans : List Channel) (p : Proc) (stateVal : Value) :
    Nat → Env → QueueState → Env × QueueState × Nat × List Nat
  | 0, env, qs => (env, qs, 0, [])
  | fuel + 1, env, qs =>
      let (env1, qs1, c1, b1) := procPass chans stateVal p.nodes env qs
      if c1 = 0 then (env1, qs1, 0, b1)
      else if iterationComplete p env1 then (env1, qs1, c1, b1)
      else
        let (env2, qs2, c2, b2) := runIteration chans p stateVal fuel env1 qs1
        (env2, qs2, c1 + c2, b2)

/-- Per-proc bookkeeping while the tick driver is running: committed state
value, any pending (incomplete) iteration environment carried over, and
whether the proc has completed an iteration during the current tick. -/
structure ProcCtx where
  proc : Proc
  stateVal : Value
  pend : Option Env
  doneTick : Bool
deriving DecidableEq, Repr

/-- Modelled from the spec: one sweep of the tick driver.  Every proc that
has not yet completed an iteration this tick resumes its pending iteration
(or starts a fresh one) and runs until complete or blocked.  A proc whose
iteration completes commits its next-state value immediately.  Returns the
updated contexts, queue state, total newly evaluated nodes, and the
blocked channels reported by the stalled procs. -/
def sweepProcs (chans : List Channel) :
    List ProcCtx → QueueState → List ProcCtx × QueueState × Nat × List Nat
  | [], qs => ([], qs, 0, [])
  | pc :: rest, qs =>
      if pc.doneTick then
        let (rest2, qs2, k, bs) := sweepProcs chans rest qs
        (pc :: rest2, qs2, k, bs)
      else
        let env0 := pc.pend.getD []
        let (env1, qs1, c1, b1) :=
          runIteration chans pc.proc pc.stateVal (pc.proc.nodes.length + 1)
            env0 qs
        if iterationComplete pc.proc env1 then
          let newState := (lookupEnv env1 pc.proc.nextStateId).getD pc.stateVal
          let (rest2, qs2, k, bs) := sweepProcs chans rest qs1
          (⟨pc.proc, newState, none, true⟩ :: rest2, qs2, c1 + k, bs)
        else
          let (rest2, qs2, k, bs) := sweepProcs chans rest qs1
          (⟨pc.proc, pc.stateVal, some env1, false⟩ :: rest2, qs2, c1 + k,
            b1 ++ bs)

/-- Status code of the returned `absl::Status`. -/
inductive StatusCode where
  | internal
  | invalidArgument
deriving DecidableEq, Repr

/-- Error value surfaced to the caller: a plain status with a code and a
message (deadlock is reported through this, not a dedicated error type). -/
structure Status where
  code : StatusCode
  message : String
deriving DecidableEq, Repr

/-- Name of channel `ch` in the declared channel list. -/
def channelName (chans : List Channel) (ch : Nat) : String :=
  match chans.find? (fun c => c.id == ch) with
  | some c => c.name
  | none => ""

/-- Remove duplicate channel ids, keeping first occurrences. -/
def dedupIds : List Nat → List Nat
  | [] => []
  | x :: xs => x :: (dedupIds xs).filter (fun y => y != x)

/-- Modelled from the spec: the deadlock error identifies every channel
with an outstanding blocked Send/Receive. -/
def deadlockStatus (chans : List Channel) (blocked : List Nat) : Status :=
  ⟨.internal,
    "Proc network is deadlocked. Blocked channels: " ++
      String.intercalate ", " ((dedupIds blocked).map (channelName chans))⟩

/-- State of the network between ticks: each proc's committed state value,
each proc's pending iteration (if its previous tick left it blocked
mid-iteration), and the channel queues. -/
structure NetState where
  procStates : List Value
  pendings : List (Option Env)
  queues : QueueState
deriving DecidableEq, Repr

/-- Modelled from the spec: the tick loop repeats sweeps until every proc
has completed an iteration this tick (success) or a sweep makes no
progress.  A stalled tick in which earlier sweeps did make progress
returns success with the blocked procs left mid-iteration (to be resumed
by the next tick); a tick with zero total progress fails with the deadlock
error naming the blocked channels. -/
def tickLoop (chans : List Channel) :
    Nat → List ProcCtx → QueueState → Nat →
    Except Status (List ProcCtx × QueueState)
  | 0, _, _, _ => .error ⟨.internal, "tick pass bound exceeded"⟩
  | fuel + 1, pcs, qs, progress =>
      if pcs.all (fun pc => pc.doneTick) then .ok (pcs, qs)
      else
        let (pcs2, qs2, cnt, blocked) := sweepProcs chans pcs qs
        if cnt = 0 then
          if progress = 0 then .error (deadlockStatus chans blocked)
          else .ok (pcs2, qs2)
        else tickLoop chans fuel pcs2 qs2 (progress + cnt)

/-- Total node count of the network, bounding the productive sweeps of one
tick. -/
def totalNodes (net : Network) : Nat :=
  (net.procs.map (fun p => p.nodes.length)).foldr (· + ·) 0

/-- Build the per-proc contexts at the start of a tick. -/
def startCtxs (net : Network) (s : NetState) : List ProcCtx :=
  (net.procs.zip (s.procStates.zip s.pendings)).map
    (fun pp => ⟨pp.1, pp.2.1, pp.2.2, false⟩)

/-- Modelled from the spec: `Tick()` — one synchronous evaluation round of
the entire network.  Either returns the committed successor state or the
deadlock error. -/
def tick (net : Network) (s : NetState) : Except Status NetState :=
  match tickLoop net.channels (totalNodes net + 2) (startCtxs net s)
      s.queues 0 with
  | .error e => .error e
  | .ok (pcs, qs) =>
      .ok ⟨pcs.map (fun pc => pc.stateVal), pcs.map (fun pc => pc.pend), qs⟩

/-- Run `n` successive ticks, stopping at the first failure. -/
def tickN (net : Network) : Nat → NetState → Except Status NetState
  | 0, s => .ok s
  | n + 1, s =>
      match tick net s with
      | .error e => .error e
      | .ok s2 => tickN net n s2

/-- Number of rows currently on channel `ch`'s queue. -/
def outputSize (s : NetState) (ch : Nat) : Nat := (getQueue s.queues ch).length

/-- Tick until at least `k` rows exist on channel `ch` (the test driver's
`while (queue.size() < k) Tick()` loop), bounded by `fuel` ticks. -/
def tickUntilSize (net : Network) (ch k : Nat) :
    Nat → NetState → Except Status NetState
  | 0, s =>
      if k ≤ outputSize s ch then .ok s
      else .error ⟨.internal, "tick bound exceeded"⟩
  | fuel + 1, s =>
      if k ≤ outputSize s ch then .ok s
      else
        match tick net s with
        | .error e => .error e
        | .ok s2 => tickUntilSize net ch k fuel s2

/-- Modelled from the spec: `ProcNetworkInterpreter::Create` — constructs
the initial network state from the declared channels and the externally
supplied queues for ReceiveOnly channels, failing with a construction
error (before any tick) when some ReceiveOnly channel has no externally
supplied queue. -/
def create (net : Network) (rxQueues : List (Nat × List Row)) :
    Except Status NetState :=
  if net.channels.all
      (fun c => c.kind != ChannelKind.receiveOnly || (rxQueues.lookup c.id).isSome)
  then
    .ok ⟨net.procs.map (fun p => p.initState),
      net.procs.map (fun _ => none),
      net.channels.map (fun c => (c.id, (rxQueues.lookup c.id).getD []))⟩
  else
    .error ⟨.invalidArgument,
      "No receive-only queue given for receive-only channel"⟩

/-!
Concrete proc networks, translated from
`xls/interpreter/proc_network_interpreter_test.cc`.
-/

/-- `CreateIotaProc`: a single Send of the u32 state, next state is
state + step; initial state `start`. -/
def iotaProc (name : String) (start step : Nat) (ch : Nat) : Proc :=
  { name := name
    initState := UBits start 32
    nodes :=
      [⟨0, .tokenParam, []⟩,
       ⟨1, .stateParam, []⟩,
       ⟨2, .send ch, [0, 1]⟩,
       ⟨3, .literal (UBits step 32), []⟩,
       ⟨4, .add, [1, 3]⟩]
    tokenOutId := 2
    nextStateId := 4 }

/-- `CreateAccumProc`: receives a u32, adds it to the running-sum state,
sends the sum; initial state 0. -/
def accumProc (name : String) (inCh outCh : Nat) : Proc :=
  { name := name
    initState := UBits 0 32
    nodes :=
      [⟨0, .tokenParam, []⟩,
       ⟨1, .stateParam, []⟩,
       ⟨2, .receive inCh, [0]⟩,
       ⟨3, .tupleIndex 0, [2]⟩,
       ⟨4, .tupleIndex 1, [2]⟩,
       ⟨5, .add, [1, 4]⟩,
       ⟨6, .send outCh, [3, 5]⟩]
    tokenOutId := 6
    nextStateId := 5 }

/-- `CreatePassThroughProc`: receives a value and sends it through;
unit (empty-tuple) state. -/
def passThroughProc (name : String) (inCh outCh : Nat) : Proc :=
  { name := name
    initState := Value.tuple []
    nodes :=
      [⟨0, .tokenParam, []⟩,
       ⟨1, .stateParam, []⟩,
       ⟨2, .receive inCh, [0]⟩,
       ⟨3, .tupleIndex 0, [2]⟩,
       ⟨4, .tupleIndex 1, [2]⟩,
       ⟨5, .send outCh, [3, 4]⟩]
    tokenOutId := 5
    nextStateId := 1 }

/-- `CreateRunLengthDecoderProc`: state is (last char : u8, remaining : u32);
receives (length, value) pairs when the remaining count is zero (ReceiveIf)
and sends the current char while the run length is nonzero (SendIf). -/
def rlDecoderProc (name : String) (inCh outCh : Nat) : Proc :=
  { name := name
    initState := Value.tuple [Value.bits 8 0, Value.bits 32 0]
    nodes :=
      [⟨0, .tokenParam, []⟩,
       ⟨1, .stateParam, []⟩,
       ⟨2, .tupleIndex 0, [1]⟩,
       ⟨3, .tupleIndex 1, [1]⟩,
       ⟨4, .literal (UBits 0 32), []⟩,
       ⟨5, .eqOp, [3, 4]⟩,
       ⟨6, .receiveIf inCh, [0, 5]⟩,
       ⟨7, .tupleIndex 1, [6]⟩,
       ⟨8, .select, [5, 3, 7]⟩,
       ⟨9, .tupleIndex 2, [6]⟩,
       ⟨10, .select, [5, 2, 9]⟩,
       ⟨11, .literal (UBits 0 32), []⟩,
       ⟨12, .neOp, [8, 11]⟩,
       ⟨13, .tupleIndex 0, [6]⟩,
       ⟨14, .sendIf outCh, [13, 12, 10]⟩,
       ⟨15, .literal (UBits 0 32), []⟩,
       ⟨16, .literal (UBits 1 32), []⟩,
       ⟨17, .sub, [8, 16]⟩,
       ⟨18, .select, [12, 15, 17]⟩,
       ⟨19, .mkTuple, [10, 18]⟩]
    tokenOutId := 14
    nextStateId := 19 }

/-- The filter proc of `RunLengthDecodingFilter`: receives a u8 and
SendIf-forwards it when its low bit is clear (even values). -/
def filterProc (name : String) (inCh outCh : Nat) : Proc :=
  { name := name
    initState := Value.tuple []
    nodes :=
      [⟨0, .tokenParam, []⟩,
       ⟨1, .stateParam, []⟩,
       ⟨2, .receive inCh, [0]⟩,
       ⟨3, .tupleIndex 0, [2]⟩,
       ⟨4, .tupleIndex 1, [2]⟩,
       ⟨5, .bitSlice 0 1, [4]⟩,
       ⟨6, .notOp, [5]⟩,
       ⟨7, .sendIf outCh, [3, 6, 4]⟩]
    tokenOutId := 7
    nextStateId := 1 }

/-- The wrapper proc of `WrappedProc`: receives an external input, sends it
to the accumulator, receives the accumulated result back and sends it
out. -/
def wrapperProc (name : String) (inCh accumInCh accumOutCh outCh : Nat) :
    Proc :=
  { name := name
    initState := Value.tuple []
    nodes :=
      [⟨0, .tokenParam, []⟩,
       ⟨1, .stateParam, []⟩,
       ⟨2, .receive inCh, [0]⟩,
       ⟨3, .tupleIndex 0, [2]⟩,
       ⟨4, .tupleIndex 1, [2]⟩,
       ⟨5, .send accumInCh, [3, 4]⟩,
       ⟨6, .receive accumOutCh, [5]⟩,
       ⟨7, .tupleIndex 0, [6]⟩,
       ⟨8, .tupleIndex 1, [6]⟩,
       ⟨9, .send outCh, [7, 8]⟩,
       ⟨10, .mkTuple, []⟩]
    tokenOutId := 9
    nextStateId := 10 }

/-- Network of the `ProcIota` test: one iota proc (start 5, step 10)
sending on the `iota_out` channel. -/
def iotaNet : Network :=
  { channels := [⟨0, "iota_out", .sendOnly, [32]⟩]
    procs := [iotaProc "iota" 5 10 0] }

/-- Network of the `IotaFeedingAccumulator` test. -/
def iotaAccumNet : Network :=
  { channels :=
      [⟨0, "iota_accum", .sendReceive, [32]⟩,
       ⟨1, "out", .sendOnly, [32]⟩]
    procs := [iotaProc "iota" 0 1 0, accumProc "accum" 0 1] }

/-- Network of the `DeadlockedProc` test: a pass-through proc whose Send
and Receive reference the same channel. -/
def deadlockNet : Network :=
  { channels := [⟨0, "my_channel", .sendReceive, [32]⟩]
    procs := [passThroughProc "feedback" 0 0] }

/-- The five run-length input rows common to `RunLengthDecoding` and
`RunLengthDecodingFilter`. -/
def rlInputRows : List Row :=
  [[UBits 1 32, UBits 42 8],
   [UBits 3 32, UBits 123 8],
   [UBits 0 32, UBits 55 8],
   [UBits 0 32, UBits 66 8],
   [UBits 2 32, UBits 20 8]]

/-- Network of the `RunLengthDecoding` test. -/
def rlNet : Network :=
  { channels :=
      [⟨0, "in", .receiveOnly, [32, 8]⟩,
       ⟨1, "output", .sendOnly, [8]⟩]
    procs := [rlDecoderProc "decoder" 0 1] }

/-- Network of the `RunLengthDecodingFilter` test. -/
def rlFilterNet : Network :=
  { channels :=
      [⟨0, "in", .receiveOnly, [32, 8]⟩,
       ⟨1, "decoded", .sendReceive, [8]⟩,
       ⟨2, "output", .sendOnly, [8]⟩]
    procs := [rlDecoderProc "decoder" 0 1, filterProc "filter" 1 2] }

/-- Network of the `WrappedProc` test. -/
def wrappedNet : Network :=
  { channels :=
      [⟨0, "input", .receiveOnly, [32]⟩,
       ⟨1, "accum_in", .sendReceive, [32]⟩,
       ⟨2, "accum_out", .sendReceive, [32]⟩,
       ⟨3, "out", .sendOnly, [32]⟩]
    procs := [wrapperProc "WrappedProc" 0 1 2 3, accumProc "accum" 1 2] }

/-- External inputs of the `WrappedProc` test. -/
def wrappedInputs : List Row :=
  [[UBits 10 32], [UBits 20 32], [UBits 30 32]]

/-- Dequeue `n` successive rows from channel `ch`, returning them in order
together with the remaining queue state; fails if the queue runs dry. -/
def dequeueSeq (ch : Nat) : Nat → QueueState → Option (List Row × QueueState)
  | 0, qs => some ([], qs)
  | n + 1, qs =>
      match dequeue qs ch with
      | none => none
      | some (r, qs2) =>
          match dequeueSeq ch n qs2 with
          | none => none
          | some (rs, qs3) => some (r :: rs, qs3)

/-- One observable operation on a channel's queue: an enqueue performed by
a Send/SendIf node, or a dequeue attempt performed by a Receive/ReceiveIf
node (or the external observer). -/
inductive QueueOp where
  | enq (r : Row)
  | deq
deriving DecidableEq, Repr

/-- Run a trace of queue operations on channel `ch`, collecting the rows
returned by the successful dequeues in order.  A dequeue on an empty queue
fails and returns nothing (the transient Empty condition). -/
def runQueueOps (ch : Nat) : List QueueOp → QueueState × List Row →
    QueueState × List Row
  | [], st => st
  | QueueOp.enq r :: ops, (qs, outs) =>
      runQueueOps ch ops (enqueue qs ch r, outs)
  | QueueOp.deq :: ops, (qs, outs) =>
      match dequeue qs ch with
      | none => runQueueOps ch ops (qs, outs)
      | some (r, qs2) => runQueueOps ch ops (qs2, outs ++ [r])

/-- The rows enqueued by a trace, in order. -/
def enqueuedRows : List QueueOp → List Row
  | [] => []
  | QueueOp.enq r :: ops => r :: enqueuedRows ops
  | QueueOp.deq :: ops => enqueuedRows ops

theorem getQueue_setQueue (qs : QueueState) (ch : Nat) (q : List Row) :
    getQueue (setQueue qs ch q) ch = q := by
  induction qs with
  | nil => simp [setQueue, getQueue]
  | cons p rest ih =>
      obtain ⟨c, q0⟩ := p
      by_cases h : c = ch
      · simp [setQueue, getQueue, h]
      · simp [setQueue, getQueue, h, ih]

theorem getQueue_enqueue (qs : QueueState) (ch : Nat) (r : Row) :
    getQueue (enqueue qs ch r) ch = getQueue qs ch ++ [r] := by
  simp [enqueue, chqEnqueue, getQueue_setQueue]

theorem dequeue_eq_none (qs : QueueState) (ch : Nat)
    (h : dequeue qs ch = none) : getQueue qs ch = [] := by
  unfold dequeue at h
  cases hq : getQueue qs ch with
  | nil => rfl
  | cons r rest => rw [hq] at h; simp [chqDequeue] at h

theorem dequeue_eq_some (qs : QueueState) (ch : Nat) (r : Row)
    (qs2 : QueueState) (h : dequeue qs ch = some (r, qs2)) :
    getQueue qs ch = r :: getQueue qs2 ch := by
  unfold dequeue at h
  cases hq : getQueue qs ch with
  | nil => rw [hq] at h; simp [chqDequeue] at h
  | cons r0 rest =>
      rw [hq] at h
      simp [chqDequeue] at h
      obtain ⟨hr, hqs⟩ := h
      subst hr
      rw [← hqs, getQueue_setQueue]

theorem fifo_invariant (ch : Nat) (ops : List QueueOp) :
    ∀ qs outs,
      (runQueueOps ch ops (qs, outs)).2 ++
          getQueue (runQueueOps ch ops (qs, outs)).1 ch =
        outs ++ getQueue qs ch ++ enqueuedRows ops := by
  induction ops with
  | nil => intro qs outs; simp [runQueueOps, enqueuedRows]
  | cons op rest ih =>
      intro qs outs
      cases op with
      | enq r =>
          simp only [runQueueOps, enqueuedRows]
          rw [ih, getQueue_enqueue]
          simp
      | deq =>
          simp only [runQueueOps, enqueuedRows]
          cases hd : dequeue qs ch with
          | none =>
              rw [ih, dequeue_eq_none qs ch hd]
          | some p =>
              obtain ⟨r, qs2⟩ := p
              rw [ih, dequeue_eq_some qs ch r qs2 hd]
              simp

/-!
Concrete initial and final network states of the test scenarios.
-/

/-- Initial state of the `ProcIota` network. -/
def iotaS0 : NetState := ⟨[UBits 5 32], [none], [(0, [])]⟩

/-- The four rows enqueued on `iota_out` by four ticks. -/
def iotaRows : List Row :=
  [[UBits 5 32], [UBits 15 32], [UBits 25 32], [UBits 35 32]]

/-- Initial state of the `IotaFeedingAccumulator` network. -/
def iotaAccumS0 : NetState :=
  ⟨[UBits 0 32, UBits 0 32], [none, none], [(0, []), (1, [])]⟩

/-- The four rows enqueued on `out` by four ticks of the accumulator
network. -/
def accumRows : List Row :=
  [[UBits 0 32], [UBits 1 32], [UBits 3 32], [UBits 6 32]]

/-- Initial state of the `DeadlockedProc` network. -/
def deadlockS0 : NetState := ⟨[Value.tuple []], [none], [(0, [])]⟩

/-- State of the `DeadlockedProc` network after its first (successful)
tick: the proc is left mid-iteration with only its parameters evaluated. -/
def deadlockS1 : NetState :=
  ⟨[Value.tuple []],
    [some [(1, Value.tuple []), (0, Value.tuple [])]],
    [(0, [])]⟩

/-- Initial state of the `RunLengthDecoding` network. -/
def rlS0 : NetState :=
  ⟨[Value.tuple [Value.bits 8 0, Value.bits 32 0]], [none],
    [(0, rlInputRows), (1, [])]⟩

/-- The six decoded rows of the `RunLengthDecoding` test. -/
def rlOutRows : List Row :=
  [[UBits 42 8], [UBits 123 8], [UBits 123 8], [UBits 123 8],
   [UBits 20 8], [UBits 20 8]]

/-- Initial state of the `RunLengthDecodingFilter` network. -/
def rlFilterS0 : NetState :=
  ⟨[Value.tuple [Value.bits 8 0, Value.bits 32 0], Value.tuple []],
    [none, none],
    [(0, rlInputRows), (1, []), (2, [])]⟩

/-- The three even rows of the `RunLengthDecodingFilter` test. -/
def filterRows : List Row := [[UBits 42 8], [UBits 20 8], [UBits 20 8]]

/-- Initial state of the `WrappedProc` network. -/
def wrappedS0 : NetState :=
  ⟨[Value.tuple [], UBits 0 32], [none, none],
    [(0, wrappedInputs), (1, []), (2, []), (3, [])]⟩

/-- The three output rows of the `WrappedProc` test. -/
def wrappedOutRows : List Row :=
  [[UBits 10 32], [UBits 30 32], [UBits 60 32]]

/-!
Claim theorems.
-/

/-- Claim C1: for the network whose only proc unconditionally Sends its
state (start 5, step 10) on channel `iota_out`, construction succeeds and
four successful ticks enqueue exactly the rows [5, 15, 25, 35], which are
dequeued in that order (leaving the queue empty). -/
theorem iota_four_ticks :
    create iotaNet [] = Except.ok iotaS0 ∧
    tickN iotaNet 4 iotaS0 =
      Except.ok ⟨[UBits 45 32], [none], [(0, iotaRows)]⟩ ∧
    dequeueSeq 0 4 [(0, iotaRows)] = some (iotaRows, [(0, [])]) :=
  ⟨rfl, rfl, rfl⟩

/-- Claim C2: for the iota (start 0, step 1) proc feeding the accumulator
proc, construction succeeds and four successful ticks enqueue exactly the
rows [0, 1, 3, 6] on the accumulator's output channel, dequeued in that
order. -/
theorem iota_accum_four_ticks :
    create iotaAccumNet [] = Except.ok iotaAccumS0 ∧
    tickN iotaAccumNet 4 iotaAccumS0 =
      Except.ok ⟨[UBits 4 32, UBits 6 32], [none, none],
        [(0, []), (1, accumRows)]⟩ ∧
    dequeueSeq 1 4 [(0, []), (1, accumRows)] =
      some (accumRows, [(0, []), (1, [])]) :=
  ⟨rfl, rfl, rfl⟩

/-- Claim C3: for the self-feedback pass-through proc, the first tick
succeeds (leaving the proc mid-iteration) and the second tick fails with
the deadlock error naming exactly the feedback channel `my_channel`. -/
theorem deadlock_first_tick_ok_second_fails :
    create deadlockNet [] = Except.ok deadlockS0 ∧
    tick deadlockNet deadlockS0 = Except.ok deadlockS1 ∧
    tick deadlockNet deadlockS1 =
      Except.error ⟨StatusCode.internal,
        "Proc network is deadlocked. Blocked channels: my_channel"⟩ :=
  ⟨rfl, rfl, rfl⟩

/-- Claim C4: a SendIf node whose predicate evaluates false completes
immediately, forwarding the token unchanged and leaving the queue state
untouched (it is `done`, never `blocked`, whatever the queue contents);
likewise a ReceiveIf node with a false predicate completes without any
dequeue, forwarding the token (with the placeholder zero row), for every
environment and queue state. -/
theorem predicate_gating (chans : List Channel) (stateVal : Value)
    (env : Env) (qs : QueueState) (n : Node) (ch : Nat) (tok : Value) :
    (∀ datas, n.op = Op.sendIf ch →
      n.operands.mapM (lookupEnv env) =
        some (tok :: Value.bits 1 0 :: datas) →
      attemptNode chans stateVal env qs n = .done tok qs) ∧
    (n.op = Op.receiveIf ch →
      n.operands.mapM (lookupEnv env) = some [tok, Value.bits 1 0] →
      attemptNode chans stateVal env qs n =
        .done (Value.tuple (tok :: zeroRow chans ch)) qs) := by
  constructor
  · intro datas hop hmap
    unfold attemptNode
    rw [hmap, hop]
  · intro hop hmap
    unfold attemptNode
    rw [hmap, hop]

/-- Witness for C4 at a concrete SendIf node with a false predicate and a
nonempty queue: the node completes, forwards the token, and the queue is
unchanged. -/
theorem predicate_gating_witness :
    attemptNode [] (Value.tuple []) [(0, tokenValue), (1, Value.bits 1 0)]
      [(5, [[UBits 7 32]])] ⟨2, Op.sendIf 5, [0, 1]⟩ =
      .done tokenValue [(5, [[UBits 7 32]])] :=
  (predicate_gating [] (Value.tuple [])
    [(0, tokenValue), (1, Value.bits 1 0)] [(5, [[UBits 7 32]])]
    ⟨2, Op.sendIf 5, [0, 1]⟩ 5 tokenValue).1 [] rfl rfl

/-- Claim C5: feeding the run-length decoder the five external rows and
ticking until six output rows exist yields exactly the byte stream
[42, 123, 123, 123, 20, 20] on the output channel, dequeued in that
order. -/
theorem run_length_decoding :
    create rlNet [(0, rlInputRows)] = Except.ok rlS0 ∧
    tickUntilSize rlNet 1 6 20 rlS0 =
      Except.ok ⟨[Value.tuple [Value.bits 8 20, Value.bits 32 0]], [none],
        [(0, []), (1, rlOutRows)]⟩ ∧
    dequeueSeq 1 6 [(0, []), (1, rlOutRows)] =
      some (rlOutRows, [(0, []), (1, [])]) :=
  ⟨rfl, rfl, rfl⟩

/-- Claim C6: chaining the same decoder (same five input rows) through the
`decoded` channel into the even-value SendIf filter and ticking until
three output rows exist yields exactly [42, 20, 20] on the final output
channel, dequeued in that order. -/
theorem run_length_decoding_filter :
    create rlFilterNet [(0, rlInputRows)] = Except.ok rlFilterS0 ∧
    tickUntilSize rlFilterNet 2 3 20 rlFilterS0 =
      Except.ok ⟨[Value.tuple [Value.bits 8 20, Value.bits 32 0],
          Value.tuple []], [none, none],
        [(0, []), (1, []), (2, filterRows)]⟩ ∧
    dequeueSeq 2 3 [(0, []), (1, []), (2, filterRows)] =
      some (filterRows, [(0, []), (1, []), (2, [])]) :=
  ⟨rfl, rfl, rfl⟩

/-- Claim C7: in the wrapped-proc network the wrapper's receive from the
accumulator blocks in an early pass and is unblocked by the accumulator's
progress within the same tick: all three ticks succeed and with external
inputs [10, 20, 30] the output channel receives exactly [10, 30, 60],
dequeued in that order. -/
theorem wrapped_proc_three_ticks :
    create wrappedNet [(0, wrappedInputs)] = Except.ok wrappedS0 ∧
    tickN wrappedNet 3 wrappedS0 =
      Except.ok ⟨[Value.tuple [], UBits 60 32], [none, none],
        [(0, []), (1, []), (2, []), (3, wrappedOutRows)]⟩ ∧
    dequeueSeq 3 3 [(0, []), (1, []), (2, []), (3, wrappedOutRows)] =
      some (wrappedOutRows, [(0, []), (1, []), (2, []), (3, [])]) :=
  ⟨rfl, rfl, rfl⟩

/-- Claim C8: FIFO law — for any channel and any trace of enqueue/dequeue
operations starting from an empty queue (covering every order in which the
network's procs and ready nodes may touch the queue), the rows returned by
the successful dequeues, followed by the rows still queued, equal the rows
enqueued, in order; dequeues therefore return the enqueued rows in
enqueue order. -/
theorem fifo_law (ch : Nat) (ops : List QueueOp) :
    (runQueueOps ch ops ([], [])).2 ++
        getQueue (runQueueOps ch ops ([], [])).1 ch =
      enqueuedRows ops := by
  have h := fifo_invariant ch ops [] []
  simpa [getQueue] using h

/-- Claim C9: interpreter construction fails (before any tick) whenever
some ReceiveOnly channel of the network has no externally supplied
queue. -/
theorem create_missing_rx_queue (net : Network)
    (rxQueues : List (Nat × List Row)) (c : Channel)
    (hc : c ∈ net.channels) (hkind : c.kind = ChannelKind.receiveOnly)
    (hmiss : rxQueues.lookup c.id = none) :
    create net rxQueues =
      Except.error ⟨StatusCode.invalidArgument,
        "No receive-only queue given for receive-only channel"⟩ := by
  unfold create
  rw [if_neg]
  intro hall
  have hcfalse := List.all_eq_true.mp hall c hc
  rw [hkind, hmiss] at hcfalse
  simp at hcfalse

/-- Witness for C9: the run-length decoder network constructed with no
external queues fails, since its `in` channel is ReceiveOnly. -/
theorem create_missing_rx_queue_witness :
    create rlNet [] =
      Except.error ⟨StatusCode.invalidArgument,
        "No receive-only queue given for receive-only channel"⟩ :=
  create_missing_rx_queue rlNet [] ⟨0, "in", ChannelKind.receiveOnly, [32, 8]⟩
    (by decide) rfl rfl

/-- Claim C10: the deadlock failure of the self-feedback network's second
tick is a plain status whose code is `internal` and whose message is the
text "Proc network is deadlocked. Blocked channels: " followed by the
names of the blocked channels. -/
theorem deadlock_error_is_internal_status :
    tick deadlockNet deadlockS1 =
      Except.error
        { code := StatusCode.internal
          message := "Proc network is deadlocked. Blocked channels: " ++
            String.intercalate ", " ["my_channel"] } :=
  rfl

end XlsSpec
